import Mathlib

/-!
Verification of `pkg/controller/volume/reconciler/reconciler.go`.

The reconciler runs a periodic loop that diffs a desired-state cache
against an actual-state cache and submits attach/detach commands to an
attacher-detacher executor.  The caches and the executor live outside the
source under verification: the loop body only consumes their results.
We therefore embed one iteration of `reconciliationLoopFunc` as a pure
function of

  * the snapshot list returned by `desiredStateOfWorld.GetVolumesToAttach`,
  * the answers of `actualStateOfWorld.VolumeNodeExists` (one membership
    oracle, queried per desired edge),
  * the snapshot list returned by `actualStateOfWorld.GetAttachedVolumes`,
  * the answers of `desiredStateOfWorld.VolumeExists`,
  * the `(timeElapsed, err)` results of `actualStateOfWorld.MarkDesireToDetach`,

and record every externally visible action (executor submissions and
cache-mutator invocations) as an event, in program order.  Durations
(`time.Duration`, an int64 nanosecond count; overflow is irrelevant at the
scales involved) are embedded as `Int`.
-/

/-- A desired edge, `cache.VolumeToAttach`: this volume should be attached
to this node.  `VolumeSpec` is an opaque payload forwarded to
`AddVolumeNode`; here it is its identifying string. -/
structure VolumeToAttach where
  VolumeName : String
  VolumeSpec : String
  NodeName : String
deriving DecidableEq

/-- An actual edge as exported by `GetAttachedVolumes`,
`cache.AttachedVolume`: this volume is attached to this node, with its
detach-safety flag. -/
structure AttachedVolume where
  VolumeName : String
  NodeName : String
  SafeToDetach : Bool
deriving DecidableEq

/-- Identity key of a desired edge. -/
def VolumeToAttach.key (d : VolumeToAttach) : String × String :=
  (d.VolumeName, d.NodeName)

/-- Identity key of an actual edge. -/
def AttachedVolume.key (a : AttachedVolume) : String × String :=
  (a.VolumeName, a.NodeName)

/-- Externally visible actions of one loop iteration, in program order:
executor submissions (`AttachVolume`, `DetachVolume`) and actual-state
cache mutator invocations (`AddVolumeNode` touch, `MarkDesireToDetach`). -/
inductive Event where
  | attachVolume (VolumeName NodeName : String)
  | detachVolume (VolumeName NodeName : String)
  | addVolumeNode (VolumeName NodeName : String)
  | markDesireToDetach (VolumeName NodeName : String)
deriving DecidableEq

/-- Edge key an event refers to. -/
def Event.key : Event → String × String
  | .attachVolume v n => (v, n)
  | .detachVolume v n => (v, n)
  | .addVolumeNode v n => (v, n)
  | .markDesireToDetach v n => (v, n)

/-- Whether an event is a submission to the attacher-detacher executor. -/
def Event.isCommand : Event → Bool
  | .attachVolume _ _ => true
  | .detachVolume _ _ => true
  | .addVolumeNode _ _ => false
  | .markDesireToDetach _ _ => false

/-- Body of the first loop of `reconciliationLoopFunc` (reconciler.go
lines 79-94) for one desired edge: if
`actualStateOfWorld.VolumeNodeExists(VolumeName, NodeName)` holds, touch
the edge via `AddVolumeNode` (its error return is only logged); otherwise
submit `AttachVolume` to the executor. -/
def attachLoopBody (volumeNodeExists : String → String → Bool)
    (volumeToAttach : VolumeToAttach) : List Event :=
  if volumeNodeExists volumeToAttach.VolumeName volumeToAttach.NodeName then
    [Event.addVolumeNode volumeToAttach.VolumeName volumeToAttach.NodeName]
  else
    [Event.attachVolume volumeToAttach.VolumeName volumeToAttach.NodeName]

/-- Body of the second loop of `reconciliationLoopFunc` (reconciler.go
lines 97-116) for one actual edge: if
`desiredStateOfWorld.VolumeExists(VolumeName, NodeName)` fails, then
either submit `DetachVolume` at once (`SafeToDetach`), or call
`MarkDesireToDetach` (its error return is only logged) and submit
`DetachVolume` exactly when the returned `timeElapsed` is strictly
greater than `maxSafeToDetachDuration`. -/
def detachLoopBody (maxSafeToDetachDuration : Int)
    (volumeExists : String → String → Bool)
    (markDesireToDetach : String → String → Int × Bool)
    (attachedVolume : AttachedVolume) : List Event :=
  if !volumeExists attachedVolume.VolumeName attachedVolume.NodeName then
    if attachedVolume.SafeToDetach then
      [Event.detachVolume attachedVolume.VolumeName attachedVolume.NodeName]
    else
      let timeElapsed :=
        (markDesireToDetach attachedVolume.VolumeName attachedVolume.NodeName).1
      Event.markDesireToDetach attachedVolume.VolumeName attachedVolume.NodeName ::
        (if timeElapsed > maxSafeToDetachDuration then
          [Event.detachVolume attachedVolume.VolumeName attachedVolume.NodeName]
        else [])
  else []

/-- One iteration of the closure returned by `reconciliationLoopFunc`
(reconciler.go lines 76-118): the attach-ensuring loop over the desired
snapshot followed by the detach-ensuring loop over the actual snapshot,
with all externally visible actions recorded in program order. -/
def reconciliationLoopFunc (maxSafeToDetachDuration : Int)
    (volumesToAttach : List VolumeToAttach)
    (volumeNodeExists : String → String → Bool)
    (attachedVolumes : List AttachedVolume)
    (volumeExists : String → String → Bool)
    (markDesireToDetach : String → String → Int × Bool) : List Event :=
  volumesToAttach.flatMap (attachLoopBody volumeNodeExists) ++
    attachedVolumes.flatMap
      (detachLoopBody maxSafeToDetachDuration volumeExists markDesireToDetach)

example :
    reconciliationLoopFunc 5 [⟨"volA", "specA", "node1"⟩]
      (fun _ _ => false) [⟨"volB", "node2", true⟩] (fun _ _ => false)
      (fun _ _ => (0, false)) =
    [Event.attachVolume "volA" "node1", Event.detachVolume "volB" "node2"] := by
  decide

/-! Characterization of the events one iteration emits. -/

/-- Events emitted for one desired edge by the attach-ensuring loop. -/
theorem mem_attachLoopBody {e : Event} {ane : String → String → Bool}
    {d : VolumeToAttach} :
    e ∈ attachLoopBody ane d ↔
      (ane d.VolumeName d.NodeName = true ∧
        e = Event.addVolumeNode d.VolumeName d.NodeName) ∨
      (ane d.VolumeName d.NodeName = false ∧
        e = Event.attachVolume d.VolumeName d.NodeName) := by
  unfold attachLoopBody
  by_cases h : ane d.VolumeName d.NodeName <;> simp [h]

/-- Events emitted for one actual edge by the detach-ensuring loop. -/
theorem mem_detachLoopBody {e : Event} {maxD : Int}
    {de : String → String → Bool} {mk : String → String → Int × Bool}
    {a : AttachedVolume} :
    e ∈ detachLoopBody maxD de mk a ↔
      de a.VolumeName a.NodeName = false ∧
        ((a.SafeToDetach = true ∧ e = Event.detachVolume a.VolumeName a.NodeName) ∨
         (a.SafeToDetach = false ∧
           (e = Event.markDesireToDetach a.VolumeName a.NodeName ∨
            ((mk a.VolumeName a.NodeName).1 > maxD ∧
              e = Event.detachVolume a.VolumeName a.NodeName)))) := by
  unfold detachLoopBody
  by_cases hd : de a.VolumeName a.NodeName
  · simp [hd]
  · by_cases hs : a.SafeToDetach
    · simp [hd, hs]
    · by_cases ht : (mk a.VolumeName a.NodeName).1 > maxD <;>
        simp [hd, hs, ht, or_comm]

/-- Membership in the full iteration's event list, unfolded to the two
loops. -/
theorem mem_reconciliationLoopFunc {e : Event} {maxD : Int}
    {ds : List VolumeToAttach} {ane : String → String → Bool}
    {as : List AttachedVolume} {de : String → String → Bool}
    {mk : String → String → Int × Bool} :
    e ∈ reconciliationLoopFunc maxD ds ane as de mk ↔
      (∃ d ∈ ds, e ∈ attachLoopBody ane d) ∨
      (∃ a ∈ as, e ∈ detachLoopBody maxD de mk a) := by
  simp [reconciliationLoopFunc, List.mem_append, List.mem_flatMap]

/-- An attach command is submitted for `(v, n)` exactly when some desired
edge has that key and the actual-membership test for it fails. -/
theorem attachVolume_mem_iff {v n : String} {maxD : Int}
    {ds : List VolumeToAttach} {ane : String → String → Bool}
    {as : List AttachedVolume} {de : String → String → Bool}
    {mk : String → String → Int × Bool} :
    Event.attachVolume v n ∈ reconciliationLoopFunc maxD ds ane as de mk ↔
      (∃ d ∈ ds, d.VolumeName = v ∧ d.NodeName = n) ∧ ane v n = false := by
  rw [mem_reconciliationLoopFunc]
  constructor
  · rintro (⟨d, hd, hmem⟩ | ⟨a, ha, hmem⟩)
    · rcases mem_attachLoopBody.1 hmem with ⟨_, h⟩ | ⟨hane, h⟩
      · exact absurd h (by simp)
      · obtain ⟨hv, hn⟩ : d.VolumeName = v ∧ d.NodeName = n := by
          constructor <;> injection h <;> simp_all
        exact ⟨⟨d, hd, hv, hn⟩, by rw [← hv, ← hn]; exact hane⟩
    · rcases mem_detachLoopBody.1 hmem with ⟨_, (⟨_, h⟩ | ⟨_, (h | ⟨_, h⟩)⟩)⟩ <;>
        exact absurd h (by simp)
  · rintro ⟨⟨d, hd, hv, hn⟩, hane⟩
    exact Or.inl ⟨d, hd, mem_attachLoopBody.2 (Or.inr (by rw [hv, hn]; exact ⟨hane, rfl⟩))⟩

/-- A touch (`AddVolumeNode`) happens for `(v, n)` exactly when some
desired edge has that key and the actual-membership test for it holds. -/
theorem addVolumeNode_mem_iff {v n : String} {maxD : Int}
    {ds : List VolumeToAttach} {ane : String → String → Bool}
    {as : List AttachedVolume} {de : String → String → Bool}
    {mk : String → String → Int × Bool} :
    Event.addVolumeNode v n ∈ reconciliationLoopFunc maxD ds ane as de mk ↔
      (∃ d ∈ ds, d.VolumeName = v ∧ d.NodeName = n) ∧ ane v n = true := by
  rw [mem_reconciliationLoopFunc]
  constructor
  · rintro (⟨d, hd, hmem⟩ | ⟨a, ha, hmem⟩)
    · rcases mem_attachLoopBody.1 hmem with ⟨hane, h⟩ | ⟨_, h⟩
      · obtain ⟨hv, hn⟩ : d.VolumeName = v ∧ d.NodeName = n := by
          constructor <;> injection h <;> simp_all
        exact ⟨⟨d, hd, hv, hn⟩, by rw [← hv, ← hn]; exact hane⟩
      · exact absurd h (by simp)
    · rcases mem_detachLoopBody.1 hmem with ⟨_, (⟨_, h⟩ | ⟨_, (h | ⟨_, h⟩)⟩)⟩ <;>
        exact absurd h (by simp)
  · rintro ⟨⟨d, hd, hv, hn⟩, hane⟩
    exact Or.inl ⟨d, hd, mem_attachLoopBody.2 (Or.inl (by rw [hv, hn]; exact ⟨hane, rfl⟩))⟩

/-- The `MarkDesireToDetach` mutator is invoked for `(v, n)` exactly when
some actual edge has that key, is not safe to detach, and the
desired-membership test for it fails. -/
theorem markDesireToDetach_mem_iff {v n : String} {maxD : Int}
    {ds : List VolumeToAttach} {ane : String → String → Bool}
    {as : List AttachedVolume} {de : String → String → Bool}
    {mk : String → String → Int × Bool} :
    Event.markDesireToDetach v n ∈ reconciliationLoopFunc maxD ds ane as de mk ↔
      (∃ a ∈ as, a.VolumeName = v ∧ a.NodeName = n ∧ a.SafeToDetach = false) ∧
        de v n = false := by
  rw [mem_reconciliationLoopFunc]
  constructor
  · rintro (⟨d, hd, hmem⟩ | ⟨a, ha, hmem⟩)
    · rcases mem_attachLoopBody.1 hmem with ⟨_, h⟩ | ⟨_, h⟩ <;> exact absurd h (by simp)
    · rcases mem_detachLoopBody.1 hmem with ⟨hde, (⟨_, h⟩ | ⟨hs, (h | ⟨_, h⟩)⟩)⟩
      · exact absurd h (by simp)
      · obtain ⟨hv, hn⟩ : a.VolumeName = v ∧ a.NodeName = n := by
          constructor <;> injection h <;> simp_all
        exact ⟨⟨a, ha, hv, hn, hs⟩, by rw [← hv, ← hn]; exact hde⟩
      · exact absurd h (by simp)
  · rintro ⟨⟨a, ha, hv, hn, hs⟩, hde⟩
    refine Or.inr ⟨a, ha, mem_detachLoopBody.2 ⟨by rw [hv, hn]; exact hde,
      Or.inr ⟨hs, Or.inl (by rw [hv, hn])⟩⟩⟩

/-- A detach command is submitted for `(v, n)` exactly when some actual
edge has that key, the desired-membership test for it fails, and either it
is safe to detach or the elapsed time returned by `MarkDesireToDetach`
strictly exceeds `maxSafeToDetachDuration`. -/
theorem detachVolume_mem_iff {v n : String} {maxD : Int}
    {ds : List VolumeToAttach} {ane : String → String → Bool}
    {as : List AttachedVolume} {de : String → String → Bool}
    {mk : String → String → Int × Bool} :
    Event.detachVolume v n ∈ reconciliationLoopFunc maxD ds ane as de mk ↔
      (∃ a ∈ as, a.VolumeName = v ∧ a.NodeName = n ∧
        (a.SafeToDetach = true ∨
          (a.SafeToDetach = false ∧ (mk v n).1 > maxD))) ∧
        de v n = false := by
  rw [mem_reconciliationLoopFunc]
  constructor
  · rintro (⟨d, hd, hmem⟩ | ⟨a, ha, hmem⟩)
    · rcases mem_attachLoopBody.1 hmem with ⟨_, h⟩ | ⟨_, h⟩ <;> exact absurd h (by simp)
    · rcases mem_detachLoopBody.1 hmem with ⟨hde, (⟨hs, h⟩ | ⟨hs, (h | ⟨ht, h⟩)⟩)⟩
      · obtain ⟨hv, hn⟩ : a.VolumeName = v ∧ a.NodeName = n := by
          constructor <;> injection h <;> simp_all
        exact ⟨⟨a, ha, hv, hn, Or.inl hs⟩, by rw [← hv, ← hn]; exact hde⟩
      · exact absurd h (by simp)
      · obtain ⟨hv, hn⟩ : a.VolumeName = v ∧ a.NodeName = n := by
          constructor <;> injection h <;> simp_all
        exact ⟨⟨a, ha, hv, hn, Or.inr ⟨hs, by rw [hv, hn] at ht; exact ht⟩⟩,
          by rw [← hv, ← hn]; exact hde⟩
  · rintro ⟨⟨a, ha, hv, hn, hcase⟩, hde⟩
    rcases hcase with hs | ⟨hs, ht⟩
    · exact Or.inr ⟨a, ha, mem_detachLoopBody.2 ⟨by rw [hv, hn]; exact hde,
        Or.inl ⟨hs, by rw [hv, hn]⟩⟩⟩
    · exact Or.inr ⟨a, ha, mem_detachLoopBody.2 ⟨by rw [hv, hn]; exact hde,
        Or.inr ⟨hs, Or.inr ⟨by rw [hv, hn]; exact ht, by rw [hv, hn]⟩⟩⟩⟩

/-! Counting events per edge key. -/

/-- Number of touches the attach-ensuring loop body emits for `(v, n)`. -/
theorem count_addVolumeNode_attachLoopBody (v n : String)
    (ane : String → String → Bool) (d : VolumeToAttach) :
    (attachLoopBody ane d).count (Event.addVolumeNode v n) =
      if d.VolumeName = v ∧ d.NodeName = n ∧ ane v n = true then 1 else 0 := by
  unfold attachLoopBody
  by_cases h : ane d.VolumeName d.NodeName <;>
    by_cases hv : d.VolumeName = v <;> by_cases hn : d.NodeName = n <;>
      simp_all [List.count_singleton, List.count_cons, List.count_nil]

/-- Number of attach commands the attach-ensuring loop body emits for
`(v, n)`. -/
theorem count_attachVolume_attachLoopBody (v n : String)
    (ane : String → String → Bool) (d : VolumeToAttach) :
    (attachLoopBody ane d).count (Event.attachVolume v n) =
      if d.VolumeName = v ∧ d.NodeName = n ∧ ane v n = false then 1 else 0 := by
  unfold attachLoopBody
  by_cases h : ane d.VolumeName d.NodeName <;>
    by_cases hv : d.VolumeName = v <;> by_cases hn : d.NodeName = n <;>
      simp_all [List.count_singleton, List.count_cons, List.count_nil]

/-- The attach-ensuring loop body never emits a detach command. -/
theorem count_detachVolume_attachLoopBody (v n : String)
    (ane : String → String → Bool) (d : VolumeToAttach) :
    (attachLoopBody ane d).count (Event.detachVolume v n) = 0 := by
  unfold attachLoopBody
  by_cases h : ane d.VolumeName d.NodeName <;> simp [h]

/-- Number of detach commands the detach-ensuring loop body emits for
`(v, n)`. -/
theorem count_detachVolume_detachLoopBody (v n : String) (maxD : Int)
    (de : String → String → Bool) (mk : String → String → Int × Bool)
    (a : AttachedVolume) :
    (detachLoopBody maxD de mk a).count (Event.detachVolume v n) =
      if a.VolumeName = v ∧ a.NodeName = n ∧ de v n = false ∧
          (a.SafeToDetach = true ∨ (mk v n).1 > maxD) then 1 else 0 := by
  unfold detachLoopBody
  by_cases hd : de a.VolumeName a.NodeName <;>
    by_cases hs : a.SafeToDetach <;>
      by_cases ht : maxD < (mk a.VolumeName a.NodeName).1 <;>
        by_cases hv : a.VolumeName = v <;> by_cases hn : a.NodeName = n <;>
          simp_all [List.count_singleton, List.count_cons, List.count_nil] <;>
            simp [if_neg (not_lt.mpr ht)]

/-- The detach-ensuring loop body never emits an attach command. -/
theorem count_attachVolume_detachLoopBody (v n : String) (maxD : Int)
    (de : String → String → Bool) (mk : String → String → Int × Bool)
    (a : AttachedVolume) :
    (detachLoopBody maxD de mk a).count (Event.attachVolume v n) = 0 := by
  unfold detachLoopBody
  by_cases hd : de a.VolumeName a.NodeName <;>
    by_cases hs : a.SafeToDetach <;>
      by_cases ht : maxD < (mk a.VolumeName a.NodeName).1 <;>
        simp_all [List.count_cons] <;> simp [if_neg (not_lt.mpr ht)]

/-- The detach-ensuring loop body never emits a touch. -/
theorem count_addVolumeNode_detachLoopBody (v n : String) (maxD : Int)
    (de : String → String → Bool) (mk : String → String → Int × Bool)
    (a : AttachedVolume) :
    (detachLoopBody maxD de mk a).count (Event.addVolumeNode v n) = 0 := by
  unfold detachLoopBody
  by_cases hd : de a.VolumeName a.NodeName <;>
    by_cases hs : a.SafeToDetach <;>
      by_cases ht : maxD < (mk a.VolumeName a.NodeName).1 <;>
        simp_all [List.count_cons] <;> simp [if_neg (not_lt.mpr ht)]

/-- Summing a per-element count that is positive for at most the unique
element carrying key `k` yields at most 1. -/
theorem sum_count_le_one {α β : Type} [DecidableEq β]
    (l : List α) (key : α → β) (k : β) (g : α → Nat)
    (hnd : (l.map key).Nodup)
    (hle : ∀ x, g x ≤ 1) (h0 : ∀ x, key x ≠ k → g x = 0) :
    (l.map g).sum ≤ 1 := by
  induction l with
  | nil => simp
  | cons x t ih =>
    simp only [List.map_cons, List.nodup_cons, List.mem_map] at hnd
    obtain ⟨hx, ht⟩ := hnd
    by_cases hk : key x = k
    · have hz : ∀ y ∈ t, g y = 0 := by
        intro y hy
        refine h0 y ?_
        intro hky
        exact hx ⟨y, hy, by rw [hky, hk]⟩
      have : (t.map g).sum = 0 := by
        refine List.sum_eq_zero ?_
        intro c hc
        obtain ⟨y, hy, rfl⟩ := List.mem_map.1 hc
        exact hz y hy
      simp [this, hle x]
    · have : g x = 0 := h0 x hk
      simp [this, ih ht]

/-- Summing a per-element count that is 1 on a present element with key
`k` and 0 off key `k` yields exactly 1 when keys are unique. -/
theorem sum_count_eq_one {α β : Type} [DecidableEq β]
    (l : List α) (key : α → β) (k : β) (g : α → Nat)
    (hnd : (l.map key).Nodup)
    (x₀ : α) (hx₀ : x₀ ∈ l) (hk₀ : key x₀ = k) (hg₀ : g x₀ = 1)
    (h0 : ∀ x, key x ≠ k → g x = 0) :
    (l.map g).sum = 1 := by
  induction l with
  | nil => exact absurd hx₀ (List.not_mem_nil x₀)
  | cons x t ih =>
    simp only [List.map_cons, List.nodup_cons, List.mem_map] at hnd
    obtain ⟨hx, ht⟩ := hnd
    rcases List.mem_cons.1 hx₀ with rfl | hmem
    · have hz : ∀ y ∈ t, g y = 0 := by
        intro y hy
        refine h0 y ?_
        intro hky
        exact hx ⟨y, hy, by rw [hky, hk₀]⟩
      have : (t.map g).sum = 0 := by
        refine List.sum_eq_zero ?_
        intro c hc
        obtain ⟨y, hy, rfl⟩ := List.mem_map.1 hc
        exact hz y hy
      simp [this, hg₀]
    · have hgx : g x = 0 := by
        refine h0 x ?_
        intro hkx
        exact hx ⟨x₀, hmem, by rw [hk₀, ← hkx]⟩
      simp [hgx, ih ht hmem]

/-- Counting an event across a flatMap sums the per-element counts. -/
theorem count_flatMap_eq_sum {α β : Type} [DecidableEq β]
    (l : List α) (f : α → List β) (x : β) :
    (l.flatMap f).count x = (l.map (fun a => (f a).count x)).sum := by
  induction l with
  | nil => simp
  | cons a t ih => simp [List.flatMap_cons, List.count_append, ih]

/-- Keys of actual edges are injective on a list with no duplicate keys. -/
theorem attached_key_inj {as : List AttachedVolume}
    (hnd : (as.map AttachedVolume.key).Nodup)
    {a b : AttachedVolume} (ha : a ∈ as) (hb : b ∈ as)
    (hk : a.key = b.key) : a = b :=
  List.inj_on_of_nodup_map hnd ha hb hk

/-! Claim theorems. -/

/-- C1: for every actual edge whose key is absent from the desired set and
whose `SafeToDetach` flag is false, each iteration calls
`MarkDesireToDetach` on the actual-state cache for that edge, and a detach
command is submitted for the edge exactly when the elapsed grace duration
returned by that call exceeds `maxSafeToDetachDuration`; since the
iteration function is the same every period, a forced detach recurs in
every later iteration whose snapshots and elapsed time still satisfy the
condition. -/
theorem C1_unsafe_edge_graced_then_forced (maxD : Int)
    (ds : List VolumeToAttach) (ane : String → String → Bool)
    (as : List AttachedVolume) (de : String → String → Bool)
    (mk : String → String → Int × Bool) (a : AttachedVolume)
    (hmem : a ∈ as)
    (hnd : (as.map AttachedVolume.key).Nodup)
    (hdes : de a.VolumeName a.NodeName = false)
    (hsafe : a.SafeToDetach = false) :
    Event.markDesireToDetach a.VolumeName a.NodeName ∈
      reconciliationLoopFunc maxD ds ane as de mk ∧
    (Event.detachVolume a.VolumeName a.NodeName ∈
        reconciliationLoopFunc maxD ds ane as de mk ↔
      (mk a.VolumeName a.NodeName).1 > maxD) := by
  refine ⟨markDesireToDetach_mem_iff.2 ⟨⟨a, hmem, rfl, rfl, hsafe⟩, hdes⟩, ?_, ?_⟩
  · intro hdet
    obtain ⟨⟨b, hb, hv, hn, hcase⟩, -⟩ := detachVolume_mem_iff.1 hdet
    have hba : b = a := attached_key_inj hnd hb hmem (by
      simp [AttachedVolume.key, hv, hn])
    subst hba
    rcases hcase with hs | ⟨-, ht⟩
    · rw [hsafe] at hs; cases hs
    · exact ht
  · intro ht
    exact detachVolume_mem_iff.2 ⟨⟨a, hmem, rfl, rfl, Or.inr ⟨hsafe, ht⟩⟩, hdes⟩

/-- Witness for C1 at a concrete input: one unsafe actual-only edge with
elapsed 7 against a maximum of 5. -/
theorem C1_unsafe_edge_graced_then_forced_witness :
    Event.markDesireToDetach "volA" "node1" ∈
      reconciliationLoopFunc 5 [] (fun _ _ => false)
        [⟨"volA", "node1", false⟩] (fun _ _ => false) (fun _ _ => (7, false)) ∧
    (Event.detachVolume "volA" "node1" ∈
        reconciliationLoopFunc 5 [] (fun _ _ => false)
          [⟨"volA", "node1", false⟩] (fun _ _ => false) (fun _ _ => (7, false)) ↔
      (7 : Int) > 5) :=
  C1_unsafe_edge_graced_then_forced 5 [] (fun _ _ => false)
    [⟨"volA", "node1", false⟩] (fun _ _ => false) (fun _ _ => (7, false))
    ⟨"volA", "node1", false⟩ (by decide) (by decide) rfl rfl

/-- C2: for every actual edge whose key is absent from the desired set and
whose `SafeToDetach` flag is true, a detach command is submitted in the
very iteration observing that state, and `MarkDesireToDetach` is not
invoked for that edge in that iteration. -/
theorem C2_safe_edge_detached_immediately (maxD : Int)
    (ds : List VolumeToAttach) (ane : String → String → Bool)
    (as : List AttachedVolume) (de : String → String → Bool)
    (mk : String → String → Int × Bool) (a : AttachedVolume)
    (hmem : a ∈ as)
    (hnd : (as.map AttachedVolume.key).Nodup)
    (hdes : de a.VolumeName a.NodeName = false)
    (hsafe : a.SafeToDetach = true) :
    Event.detachVolume a.VolumeName a.NodeName ∈
      reconciliationLoopFunc maxD ds ane as de mk ∧
    Event.markDesireToDetach a.VolumeName a.NodeName ∉
      reconciliationLoopFunc maxD ds ane as de mk := by
  refine ⟨detachVolume_mem_iff.2 ⟨⟨a, hmem, rfl, rfl, Or.inl hsafe⟩, hdes⟩, ?_⟩
  intro hmark
  obtain ⟨⟨b, hb, hv, hn, hs⟩, -⟩ := markDesireToDetach_mem_iff.1 hmark
  have hba : b = a := attached_key_inj hnd hb hmem (by
    simp [AttachedVolume.key, hv, hn])
  subst hba
  rw [hsafe] at hs
  cases hs

/-- Witness for C2 at a concrete input: one safe actual-only edge. -/
theorem C2_safe_edge_detached_immediately_witness :
    Event.detachVolume "volA" "node1" ∈
      reconciliationLoopFunc 5 [] (fun _ _ => false)
        [⟨"volA", "node1", true⟩] (fun _ _ => false) (fun _ _ => (0, false)) ∧
    Event.markDesireToDetach "volA" "node1" ∉
      reconciliationLoopFunc 5 [] (fun _ _ => false)
        [⟨"volA", "node1", true⟩] (fun _ _ => false) (fun _ _ => (0, false)) :=
  C2_safe_edge_detached_immediately 5 [] (fun _ _ => false)
    [⟨"volA", "node1", true⟩] (fun _ _ => false) (fun _ _ => (0, false))
    ⟨"volA", "node1", true⟩ (by decide) (by decide) rfl rfl

/-- C3: in every iteration, a desired edge whose key already exists in the
actual set gets exactly one touch (`AddVolumeNode`) and no attach command,
while a desired edge whose key is absent from the actual set gets an
attach command; since the iteration function is the same every period, the
attach is resubmitted in every iteration whose membership test still
fails. -/
theorem C3_desired_edges_touched_or_attached (maxD : Int)
    (ds : List VolumeToAttach) (ane : String → String → Bool)
    (as : List AttachedVolume) (de : String → String → Bool)
    (mk : String → String → Int × Bool) (d : VolumeToAttach)
    (hmem : d ∈ ds)
    (hnd : (ds.map VolumeToAttach.key).Nodup) :
    (ane d.VolumeName d.NodeName = true →
      (reconciliationLoopFunc maxD ds ane as de mk).count
          (Event.addVolumeNode d.VolumeName d.NodeName) = 1 ∧
        Event.attachVolume d.VolumeName d.NodeName ∉
          reconciliationLoopFunc maxD ds ane as de mk) ∧
    (ane d.VolumeName d.NodeName = false →
      Event.attachVolume d.VolumeName d.NodeName ∈
        reconciliationLoopFunc maxD ds ane as de mk) := by
  constructor
  · intro hane
    constructor
    · rw [reconciliationLoopFunc, List.count_append,
        count_flatMap_eq_sum, count_flatMap_eq_sum]
      have hB : (as.map fun a =>
          (detachLoopBody maxD de mk a).count
            (Event.addVolumeNode d.VolumeName d.NodeName)).sum = 0 := by
        refine List.sum_eq_zero ?_
        intro c hc
        obtain ⟨a, _, rfl⟩ := List.mem_map.1 hc
        exact count_addVolumeNode_detachLoopBody _ _ _ _ _ _
      have hA : (ds.map fun x =>
          (attachLoopBody ane x).count
            (Event.addVolumeNode d.VolumeName d.NodeName)).sum = 1 := by
        refine sum_count_eq_one ds VolumeToAttach.key
          (d.VolumeName, d.NodeName) _ hnd d hmem rfl ?_ ?_
        · rw [count_addVolumeNode_attachLoopBody]
          simp [hane]
        · intro x hx
          rw [count_addVolumeNode_attachLoopBody]
          refine if_neg ?_
          rintro ⟨hv, hn, -⟩
          exact hx (by simp [VolumeToAttach.key, hv, hn])
      rw [hA, hB]
    · intro hatt
      obtain ⟨-, hfalse⟩ := attachVolume_mem_iff.1 hatt
      rw [hane] at hfalse
      cases hfalse
  · intro hane
    exact attachVolume_mem_iff.2 ⟨⟨d, hmem, rfl, rfl⟩, hane⟩

/-- Witness for C3 at a concrete input: one desired edge already actual
(touched once, no attach) and one missing from actual (attached). -/
theorem C3_desired_edges_touched_or_attached_witness :
    ((reconciliationLoopFunc 5
        [⟨"volA", "specA", "node1"⟩, ⟨"volB", "specB", "node2"⟩]
        (fun v n => v == "volA" && n == "node1") [] (fun _ _ => false)
        (fun _ _ => (0, false))).count (Event.addVolumeNode "volA" "node1") = 1 ∧
      Event.attachVolume "volA" "node1" ∉
        reconciliationLoopFunc 5
          [⟨"volA", "specA", "node1"⟩, ⟨"volB", "specB", "node2"⟩]
          (fun v n => v == "volA" && n == "node1") [] (fun _ _ => false)
          (fun _ _ => (0, false))) ∧
    Event.attachVolume "volB" "node2" ∈
      reconciliationLoopFunc 5
        [⟨"volA", "specA", "node1"⟩, ⟨"volB", "specB", "node2"⟩]
        (fun v n => v == "volA" && n == "node1") [] (fun _ _ => false)
        (fun _ _ => (0, false)) :=
  ⟨(C3_desired_edges_touched_or_attached 5
      [⟨"volA", "specA", "node1"⟩, ⟨"volB", "specB", "node2"⟩]
      (fun v n => v == "volA" && n == "node1") [] (fun _ _ => false)
      (fun _ _ => (0, false)) ⟨"volA", "specA", "node1"⟩
      (by decide) (by decide)).1 (by decide),
    (C3_desired_edges_touched_or_attached 5
      [⟨"volA", "specA", "node1"⟩, ⟨"volB", "specB", "node2"⟩]
      (fun v n => v == "volA" && n == "node1") [] (fun _ _ => false)
      (fun _ _ => (0, false)) ⟨"volB", "specB", "node2"⟩
      (by decide) (by decide)).2 (by decide)⟩

/-- Modelled from the spec: the `MarkDesireToDetach` mutator belongs to
the actual-state cache (package `pkg/controller/volume/cache`, whose code
is not under src/).  Per the spec it returns the monotonic elapsed
duration since the grace timer started and may fail non-fatally; a failing
call has no timer to report, so it reports a zero elapsed duration
alongside the error. -/
def MarkErrorsReportZero (mk : String → String → Int × Bool) : Prop :=
  ∀ v n, (mk v n).2 = true → (mk v n).1 = 0

/-- Every event the detach-ensuring loop body emits for an actual edge
carries that edge's key. -/
theorem key_of_mem_detachLoopBody {e : Event} {maxD : Int}
    {de : String → String → Bool} {mk : String → String → Int × Bool}
    {a : AttachedVolume} (h : e ∈ detachLoopBody maxD de mk a) :
    e.key = (a.VolumeName, a.NodeName) := by
  rcases mem_detachLoopBody.1 h with ⟨-, (⟨-, rfl⟩ | ⟨-, (rfl | ⟨-, rfl⟩)⟩)⟩ <;> rfl

/-- Filtering distributes over flatMap. -/
theorem filter_flatMap_comm {α β : Type} (l : List α) (f : α → List β)
    (p : β → Bool) :
    (l.flatMap f).filter p = l.flatMap (fun x => (f x).filter p) := by
  induction l with
  | nil => rfl
  | cons x t ih => simp [List.flatMap_cons, List.filter_append, ih]

/-- flatMap only depends on the function's values on list members. -/
theorem flatMap_congr_mem {α β : Type} {l : List α} {f g : α → List β}
    (h : ∀ x ∈ l, f x = g x) : l.flatMap f = l.flatMap g := by
  induction l with
  | nil => rfl
  | cons x t ih =>
    simp only [List.flatMap_cons, h x (List.mem_cons_self x t),
      ih fun y hy => h y (List.mem_cons_of_mem x hy)]

/-- The detach-ensuring loop body queries the mark oracle only at the
edge's own key. -/
theorem detachLoopBody_congr_mark {maxD : Int}
    {de : String → String → Bool} {mk mk' : String → String → Int × Bool}
    {a : AttachedVolume}
    (h : mk' a.VolumeName a.NodeName = mk a.VolumeName a.NodeName) :
    detachLoopBody maxD de mk' a = detachLoopBody maxD de mk a := by
  unfold detachLoopBody
  rw [h]

/-- Events of an iteration restricted to keys other than `k`. -/
def eventsOffKey (k : String × String) (l : List Event) : List Event :=
  l.filter fun e => decide (Event.key e ≠ k)

/-- C5: when `MarkDesireToDetach` returns an error for an actual-only
unsafe edge, no detach command is submitted for that edge in the
iteration, and the events emitted for every other key are exactly those
that would be emitted whatever the mutator answered for the failing edge:
the other edges and later iterations proceed unimpeded. -/
theorem C5_mark_error_abandons_edge_only (maxD : Int)
    (ds : List VolumeToAttach) (ane : String → String → Bool)
    (as : List AttachedVolume) (de : String → String → Bool)
    (mk : String → String → Int × Bool) (a : AttachedVolume)
    (hmem : a ∈ as)
    (hnd : (as.map AttachedVolume.key).Nodup)
    (hdes : de a.VolumeName a.NodeName = false)
    (hsafe : a.SafeToDetach = false)
    (herr : (mk a.VolumeName a.NodeName).2 = true)
    (hcontract : MarkErrorsReportZero mk)
    (hmax : 0 ≤ maxD) :
    Event.detachVolume a.VolumeName a.NodeName ∉
      reconciliationLoopFunc maxD ds ane as de mk ∧
    ∀ mk' : String → String → Int × Bool,
      (∀ v n, (v, n) ≠ (a.VolumeName, a.NodeName) → mk' v n = mk v n) →
      eventsOffKey (a.VolumeName, a.NodeName)
          (reconciliationLoopFunc maxD ds ane as de mk') =
        eventsOffKey (a.VolumeName, a.NodeName)
          (reconciliationLoopFunc maxD ds ane as de mk) := by
  constructor
  · intro hdet
    obtain ⟨⟨b, hb, hv, hn, hcase⟩, -⟩ := detachVolume_mem_iff.1 hdet
    have hba : b = a := attached_key_inj hnd hb hmem (by
      simp [AttachedVolume.key, hv, hn])
    subst hba
    rcases hcase with hs | ⟨-, ht⟩
    · rw [hsafe] at hs; cases hs
    · rw [hcontract _ _ herr] at ht
      exact absurd hmax (not_le.mpr ht)
  · intro mk' hagree
    unfold reconciliationLoopFunc eventsOffKey
    rw [List.filter_append, List.filter_append]
    simp only [filter_flatMap_comm]
    refine congrArg _ (flatMap_congr_mem ?_)
    intro b hb
    by_cases hbk : (b.VolumeName, b.NodeName) = (a.VolumeName, a.NodeName)
    · have hnil : ∀ mk₀ : String → String → Int × Bool,
          (detachLoopBody maxD de mk₀ b).filter
            (fun e => decide (Event.key e ≠ (a.VolumeName, a.NodeName))) = [] := by
        intro mk₀
        refine List.filter_eq_nil_iff.mpr ?_
        intro e he
        rw [key_of_mem_detachLoopBody he, hbk]
        simp
      rw [hnil mk', hnil mk]
    · rw [detachLoopBody_congr_mark (hagree _ _ hbk)]

/-- Witness for C5 at a concrete input: the mark mutator errors on
`(volA, node1)` and a second, safe edge `(volB, node2)` is still
detached. -/
theorem C5_mark_error_abandons_edge_only_witness :
    Event.detachVolume "volA" "node1" ∉
      reconciliationLoopFunc 5 [] (fun _ _ => false)
        [⟨"volA", "node1", false⟩, ⟨"volB", "node2", true⟩]
        (fun _ _ => false) (fun v _ => (0, v == "volA")) ∧
    ∀ mk' : String → String → Int × Bool,
      (∀ v n, (v, n) ≠ ("volA", "node1") → mk' v n = (fun v _ => ((0 : Int), v == "volA")) v n) →
      eventsOffKey ("volA", "node1")
          (reconciliationLoopFunc 5 [] (fun _ _ => false)
            [⟨"volA", "node1", false⟩, ⟨"volB", "node2", true⟩]
            (fun _ _ => false) mk') =
        eventsOffKey ("volA", "node1")
          (reconciliationLoopFunc 5 [] (fun _ _ => false)
            [⟨"volA", "node1", false⟩, ⟨"volB", "node2", true⟩]
            (fun _ _ => false) (fun v _ => (0, v == "volA"))) :=
  C5_mark_error_abandons_edge_only 5 [] (fun _ _ => false)
    [⟨"volA", "node1", false⟩, ⟨"volB", "node2", true⟩]
    (fun _ _ => false) (fun v _ => (0, v == "volA"))
    ⟨"volA", "node1", false⟩ (by decide) (by decide) rfl rfl rfl
    (fun _ _ _ => rfl) (by decide)

/-- C6: an edge present in the desired snapshot that is also actual gets a
touch from the attach-ensuring loop, and the detach-ensuring loop submits
no detach and no mark for its key, whatever grace timer had been running:
once it is desired again, the detach phase never considers it. -/
theorem C6_redesired_edge_touched_never_detached (maxD : Int)
    (ds : List VolumeToAttach) (ane : String → String → Bool)
    (as : List AttachedVolume) (de : String → String → Bool)
    (mk : String → String → Int × Bool) (d : VolumeToAttach)
    (hmem : d ∈ ds)
    (hane : ane d.VolumeName d.NodeName = true)
    (hde : de d.VolumeName d.NodeName = true) :
    Event.addVolumeNode d.VolumeName d.NodeName ∈
      reconciliationLoopFunc maxD ds ane as de mk ∧
    Event.detachVolume d.VolumeName d.NodeName ∉
      reconciliationLoopFunc maxD ds ane as de mk ∧
    Event.markDesireToDetach d.VolumeName d.NodeName ∉
      reconciliationLoopFunc maxD ds ane as de mk := by
  refine ⟨addVolumeNode_mem_iff.2 ⟨⟨d, hmem, rfl, rfl⟩, hane⟩, ?_, ?_⟩
  · intro hdet
    obtain ⟨-, hfalse⟩ := detachVolume_mem_iff.1 hdet
    rw [hde] at hfalse
    cases hfalse
  · intro hmark
    obtain ⟨-, hfalse⟩ := markDesireToDetach_mem_iff.1 hmark
    rw [hde] at hfalse
    cases hfalse

/-- Witness for C6 at a concrete input: `(volA, node1)` is desired again
while still actual with its grace timer far past the maximum. -/
theorem C6_redesired_edge_touched_never_detached_witness :
    Event.addVolumeNode "volA" "node1" ∈
      reconciliationLoopFunc 5 [⟨"volA", "specA", "node1"⟩] (fun _ _ => true)
        [⟨"volA", "node1", false⟩] (fun _ _ => true) (fun _ _ => (100, false)) ∧
    Event.detachVolume "volA" "node1" ∉
      reconciliationLoopFunc 5 [⟨"volA", "specA", "node1"⟩] (fun _ _ => true)
        [⟨"volA", "node1", false⟩] (fun _ _ => true) (fun _ _ => (100, false)) ∧
    Event.markDesireToDetach "volA" "node1" ∉
      reconciliationLoopFunc 5 [⟨"volA", "specA", "node1"⟩] (fun _ _ => true)
        [⟨"volA", "node1", false⟩] (fun _ _ => true) (fun _ _ => (100, false)) :=
  C6_redesired_edge_touched_never_detached 5 [⟨"volA", "specA", "node1"⟩]
    (fun _ _ => true) [⟨"volA", "node1", false⟩] (fun _ _ => true)
    (fun _ _ => (100, false)) ⟨"volA", "specA", "node1"⟩ (by decide) rfl rfl

/-- C4 counterexample: with `maxSafeToDetachDuration = 5` and the
actual-only unsafe edge `(volA, node1)` whose reported elapsed grace time
equals exactly 5, the claim asserts a forced detach is submitted in that
iteration; the code compares with a strict `>` and submits none. -/
theorem C4_counterexample_equality_submits_no_detach :
    Event.detachVolume "volA" "node1" ∉
      reconciliationLoopFunc 5 [] (fun _ _ => false)
        [⟨"volA", "node1", false⟩] (fun _ _ => false)
        (fun _ _ => (5, false)) := by
  decide

/-- C4 amended: with `maxSafeToDetachDuration = 5` and the actual-only
unsafe edge `(volA, node1)`, no detach is submitted while the reported
elapsed grace time is at most 5 — including at exactly 5 — and a forced
detach is submitted in any iteration whose reported elapsed time strictly
exceeds 5: the threshold is `elapsed > maxSafeToDetachDuration`. -/
theorem C4_amended_strict_threshold (e : Int) :
    (e ≤ 5 →
      Event.detachVolume "volA" "node1" ∉
        reconciliationLoopFunc 5 [] (fun _ _ => false)
          [⟨"volA", "node1", false⟩] (fun _ _ => false)
          (fun _ _ => (e, false))) ∧
    (5 < e →
      Event.detachVolume "volA" "node1" ∈
        reconciliationLoopFunc 5 [] (fun _ _ => false)
          [⟨"volA", "node1", false⟩] (fun _ _ => false)
          (fun _ _ => (e, false))) := by
  have h : Event.detachVolume "volA" "node1" ∈
      reconciliationLoopFunc 5 [] (fun _ _ => false)
        [⟨"volA", "node1", false⟩] (fun _ _ => false)
        (fun _ _ => (e, false)) ↔ (5 : Int) < e := by
    rw [detachVolume_mem_iff]
    simp
  exact ⟨fun hle hmem => absurd (h.1 hmem) (not_lt.mpr hle), fun hlt => h.2 hlt⟩

/-- Witness for the amended C4: no detach at elapsed 5, detach at
elapsed 6. -/
theorem C4_amended_strict_threshold_witness :
    Event.detachVolume "volA" "node1" ∉
      reconciliationLoopFunc 5 [] (fun _ _ => false)
        [⟨"volA", "node1", false⟩] (fun _ _ => false)
        (fun _ _ => (5, false)) ∧
    Event.detachVolume "volA" "node1" ∈
      reconciliationLoopFunc 5 [] (fun _ _ => false)
        [⟨"volA", "node1", false⟩] (fun _ _ => false)
        (fun _ _ => (6, false)) :=
  ⟨(C4_amended_strict_threshold 5).1 (by decide),
    (C4_amended_strict_threshold 6).2 (by decide)⟩

/-- C7: permuting the enumeration order of the desired snapshot or of the
actual snapshot permutes the iteration's event list, so the multiset of
attach commands, detach commands, touches and mark calls is unchanged. -/
theorem C7_order_has_no_observable_effect (maxD : Int)
    (ane : String → String → Bool) (de : String → String → Bool)
    (mk : String → String → Int × Bool)
    {ds ds' : List VolumeToAttach} {as as' : List AttachedVolume}
    (hd : ds.Perm ds') (ha : as.Perm as') :
    (reconciliationLoopFunc maxD ds ane as de mk).Perm
      (reconciliationLoopFunc maxD ds' ane as' de mk) :=
  (hd.flatMap_right _).append (ha.flatMap_right _)

/-- Witness for C7 at a concrete input: two-element snapshots enumerated
in swapped orders. -/
theorem C7_order_has_no_observable_effect_witness :
    (reconciliationLoopFunc 5
        [⟨"volA", "specA", "node1"⟩, ⟨"volB", "specB", "node2"⟩]
        (fun _ _ => false)
        [⟨"volC", "node3", true⟩, ⟨"volD", "node4", false⟩]
        (fun _ _ => false) (fun _ _ => (0, false))).Perm
      (reconciliationLoopFunc 5
        [⟨"volB", "specB", "node2"⟩, ⟨"volA", "specA", "node1"⟩]
        (fun _ _ => false)
        [⟨"volD", "node4", false⟩, ⟨"volC", "node3", true⟩]
        (fun _ _ => false) (fun _ _ => (0, false))) :=
  C7_order_has_no_observable_effect 5 (fun _ _ => false) (fun _ _ => false)
    (fun _ _ => (0, false)) (by decide) (by decide)

/-- C10: in one iteration an attach for a key is submitted only when some
desired edge carries the key and the actual-membership test fails, a
detach only when some actual edge carries the key and the
desired-membership test fails; when the actual-membership test agrees with
the actual snapshot the two triggers are mutually exclusive, and with
duplicate-free keys at most one executor command is submitted per key. -/
theorem C10_at_most_one_command_per_key (maxD : Int)
    (ds : List VolumeToAttach) (ane : String → String → Bool)
    (as : List AttachedVolume) (de : String → String → Bool)
    (mk : String → String → Int × Bool)
    (hndd : (ds.map VolumeToAttach.key).Nodup)
    (hnda : (as.map AttachedVolume.key).Nodup)
    (hcoh : ∀ v n, ane v n = true ↔ ∃ a ∈ as, a.VolumeName = v ∧ a.NodeName = n) :
    ∀ v n,
      (Event.attachVolume v n ∈ reconciliationLoopFunc maxD ds ane as de mk →
        (∃ d ∈ ds, d.VolumeName = v ∧ d.NodeName = n) ∧ ane v n = false) ∧
      (Event.detachVolume v n ∈ reconciliationLoopFunc maxD ds ane as de mk →
        (∃ a ∈ as, a.VolumeName = v ∧ a.NodeName = n) ∧ de v n = false) ∧
      ¬(Event.attachVolume v n ∈ reconciliationLoopFunc maxD ds ane as de mk ∧
        Event.detachVolume v n ∈ reconciliationLoopFunc maxD ds ane as de mk) ∧
      (reconciliationLoopFunc maxD ds ane as de mk).count (Event.attachVolume v n) +
        (reconciliationLoopFunc maxD ds ane as de mk).count (Event.detachVolume v n) ≤ 1 := by
  intro v n
  have hexcl : ¬(Event.attachVolume v n ∈ reconciliationLoopFunc maxD ds ane as de mk ∧
      Event.detachVolume v n ∈ reconciliationLoopFunc maxD ds ane as de mk) := by
    rintro ⟨hatt, hdet⟩
    obtain ⟨-, hane⟩ := attachVolume_mem_iff.1 hatt
    obtain ⟨⟨a, ha, hv, hn, -⟩, -⟩ := detachVolume_mem_iff.1 hdet
    rw [(hcoh v n).2 ⟨a, ha, hv, hn⟩] at hane
    cases hane
  have hattc : (reconciliationLoopFunc maxD ds ane as de mk).count
      (Event.attachVolume v n) ≤ 1 := by
    rw [reconciliationLoopFunc, List.count_append,
      count_flatMap_eq_sum, count_flatMap_eq_sum]
    have hB : (as.map fun a => (detachLoopBody maxD de mk a).count
        (Event.attachVolume v n)).sum = 0 := by
      refine List.sum_eq_zero ?_
      intro c hc
      obtain ⟨a, -, rfl⟩ := List.mem_map.1 hc
      exact count_attachVolume_detachLoopBody _ _ _ _ _ _
    have hA : (ds.map fun x => (attachLoopBody ane x).count
        (Event.attachVolume v n)).sum ≤ 1 := by
      refine sum_count_le_one ds VolumeToAttach.key (v, n) _ hndd ?_ ?_
      · intro x
        rw [count_attachVolume_attachLoopBody]
        split <;> simp
      · intro x hx
        rw [count_attachVolume_attachLoopBody]
        refine if_neg ?_
        rintro ⟨hv, hn, -⟩
        exact hx (by simp [VolumeToAttach.key, hv, hn])
    omega
  have hdetc : (reconciliationLoopFunc maxD ds ane as de mk).count
      (Event.detachVolume v n) ≤ 1 := by
    rw [reconciliationLoopFunc, List.count_append,
      count_flatMap_eq_sum, count_flatMap_eq_sum]
    have hA : (ds.map fun x => (attachLoopBody ane x).count
        (Event.detachVolume v n)).sum = 0 := by
      refine List.sum_eq_zero ?_
      intro c hc
      obtain ⟨x, -, rfl⟩ := List.mem_map.1 hc
      exact count_detachVolume_attachLoopBody _ _ _ _
    have hB : (as.map fun a => (detachLoopBody maxD de mk a).count
        (Event.detachVolume v n)).sum ≤ 1 := by
      refine sum_count_le_one as AttachedVolume.key (v, n) _ hnda ?_ ?_
      · intro a
        rw [count_detachVolume_detachLoopBody]
        split <;> simp
      · intro a ha
        rw [count_detachVolume_detachLoopBody]
        refine if_neg ?_
        rintro ⟨hv, hn, -⟩
        exact ha (by simp [AttachedVolume.key, hv, hn])
    omega
  refine ⟨fun h => attachVolume_mem_iff.1 h, fun h => ?_, hexcl, ?_⟩
  · obtain ⟨⟨a, ha, hv, hn, -⟩, hde⟩ := detachVolume_mem_iff.1 h
    exact ⟨⟨a, ha, hv, hn⟩, hde⟩
  · by_cases hatt : Event.attachVolume v n ∈ reconciliationLoopFunc maxD ds ane as de mk
    · have : Event.detachVolume v n ∉ reconciliationLoopFunc maxD ds ane as de mk :=
        fun hdet => hexcl ⟨hatt, hdet⟩
      rw [List.count_eq_zero.2 this]
      omega
    · rw [List.count_eq_zero.2 hatt]
      omega

/-- Witness for C10 at a concrete input: one desired-only edge and one
actual-only edge, with the actual-membership test read off the actual
snapshot, instantiated at the key `(volA, node1)`. -/
theorem C10_at_most_one_command_per_key_witness :
    (Event.attachVolume "volA" "node1" ∈ reconciliationLoopFunc 5
        [⟨"volA", "specA", "node1"⟩]
        (fun v n => v == "volB" && n == "node2")
        [⟨"volB", "node2", true⟩] (fun _ _ => false) (fun _ _ => (0, false)) →
      (∃ d ∈ [(⟨"volA", "specA", "node1"⟩ : VolumeToAttach)],
        d.VolumeName = "volA" ∧ d.NodeName = "node1") ∧
      (fun v n => v == "volB" && n == "node2") "volA" "node1" = false) ∧
    (Event.detachVolume "volA" "node1" ∈ reconciliationLoopFunc 5
        [⟨"volA", "specA", "node1"⟩]
        (fun v n => v == "volB" && n == "node2")
        [⟨"volB", "node2", true⟩] (fun _ _ => false) (fun _ _ => (0, false)) →
      (∃ a ∈ [(⟨"volB", "node2", true⟩ : AttachedVolume)],
        a.VolumeName = "volA" ∧ a.NodeName = "node1") ∧
      (fun _ _ => (false : Bool)) "volA" "node1" = false) ∧
    ¬(Event.attachVolume "volA" "node1" ∈ reconciliationLoopFunc 5
        [⟨"volA", "specA", "node1"⟩]
        (fun v n => v == "volB" && n == "node2")
        [⟨"volB", "node2", true⟩] (fun _ _ => false) (fun _ _ => (0, false)) ∧
      Event.detachVolume "volA" "node1" ∈ reconciliationLoopFunc 5
        [⟨"volA", "specA", "node1"⟩]
        (fun v n => v == "volB" && n == "node2")
        [⟨"volB", "node2", true⟩] (fun _ _ => false) (fun _ _ => (0, false))) ∧
    (reconciliationLoopFunc 5 [⟨"volA", "specA", "node1"⟩]
        (fun v n => v == "volB" && n == "node2")
        [⟨"volB", "node2", true⟩] (fun _ _ => false)
        (fun _ _ => (0, false))).count (Event.attachVolume "volA" "node1") +
      (reconciliationLoopFunc 5 [⟨"volA", "specA", "node1"⟩]
        (fun v n => v == "volB" && n == "node2")
        [⟨"volB", "node2", true⟩] (fun _ _ => false)
        (fun _ _ => (0, false))).count (Event.detachVolume "volA" "node1") ≤ 1 :=
  C10_at_most_one_command_per_key 5 [⟨"volA", "specA", "node1"⟩]
    (fun v n => v == "volB" && n == "node2") [⟨"volB", "node2", true⟩]
    (fun _ _ => false) (fun _ _ => (0, false)) (by decide) (by decide)
    (by
      intro v n
      constructor
      · intro h
        rw [Bool.and_eq_true, beq_iff_eq, beq_iff_eq] at h
        obtain ⟨rfl, rfl⟩ := h
        exact ⟨⟨"volB", "node2", true⟩, List.mem_singleton.2 rfl, rfl, rfl⟩
      · rintro ⟨a, ha, hv, hn⟩
        rw [List.mem_singleton.1 ha] at hv hn
        rw [← hv, ← hn]
        decide)
    "volA" "node1"

/-! Stateful model: the two caches as concrete states, threaded through
one iteration, to settle frame and scheduling claims. -/

/-- Modelled from the spec: one record of the actual-state cache (package
`pkg/controller/volume/cache`, not under src/): an attached edge with its
detach-safety flag and the lazily-created grace-timer start time
(`DesireToDetachSince`), 0 encoding "unset" as Go's zero time does. -/
structure AttachedVolumeEntry where
  VolumeName : String
  NodeName : String
  SafeToDetach : Bool
  DetachRequestedTime : Int
deriving DecidableEq

/-- Modelled from the spec: the desired-state cache (package
`pkg/controller/volume/cache`, not under src/), an edge set owned and
mutated only by external binding logic. -/
structure DesiredStateOfWorld where
  volumesToAttach : List VolumeToAttach
deriving DecidableEq

/-- Modelled from the spec: the actual-state cache (package
`pkg/controller/volume/cache`, not under src/). -/
structure ActualStateOfWorld where
  attachedVolumes : List AttachedVolumeEntry
deriving DecidableEq

/-- Modelled from the spec: enumeration of the desired snapshot. -/
def DesiredStateOfWorld.GetVolumesToAttach (dsw : DesiredStateOfWorld) :
    List VolumeToAttach :=
  dsw.volumesToAttach

/-- Modelled from the spec: pure membership test on the desired cache. -/
def DesiredStateOfWorld.VolumeExists (dsw : DesiredStateOfWorld)
    (v n : String) : Bool :=
  dsw.volumesToAttach.any fun d => d.VolumeName == v && d.NodeName == n

/-- Modelled from the spec: pure membership test on the actual cache. -/
def ActualStateOfWorld.VolumeNodeExists (asw : ActualStateOfWorld)
    (v n : String) : Bool :=
  asw.attachedVolumes.any fun e => e.VolumeName == v && e.NodeName == n

/-- Modelled from the spec: enumeration of the actual snapshot. -/
def ActualStateOfWorld.GetAttachedVolumes (asw : ActualStateOfWorld) :
    List AttachedVolume :=
  asw.attachedVolumes.map fun e => ⟨e.VolumeName, e.NodeName, e.SafeToDetach⟩

/-- Modelled from the spec: the touch mutator of the actual cache —
idempotent, resets a running detach-grace timer, fails (non-fatally) when
the edge no longer exists.  The cache derives the volume name from the
volume spec; the model identifies the two. -/
def ActualStateOfWorld.AddVolumeNode (asw : ActualStateOfWorld)
    (volumeSpec n : String) : ActualStateOfWorld × Bool :=
  if asw.attachedVolumes.any fun e => e.VolumeName == volumeSpec && e.NodeName == n then
    (⟨asw.attachedVolumes.map fun e =>
        if e.VolumeName == volumeSpec && e.NodeName == n then
          { e with DetachRequestedTime := 0 }
        else e⟩,
      false)
  else (asw, true)

/-- Modelled from the spec: the mark-desire-to-detach mutator of the
actual cache — starts the grace timer idempotently at `now` and returns
the elapsed duration since it started; when the edge no longer exists it
fails non-fatally, reporting a zero duration alongside the error. -/
def ActualStateOfWorld.MarkDesireToDetach (asw : ActualStateOfWorld)
    (now : Int) (v n : String) : ActualStateOfWorld × Int × Bool :=
  match asw.attachedVolumes.find? fun e => e.VolumeName == v && e.NodeName == n with
  | some e =>
    if e.DetachRequestedTime = 0 then
      (⟨asw.attachedVolumes.map fun e' =>
          if e'.VolumeName == v && e'.NodeName == n then
            { e' with DetachRequestedTime := now }
          else e'⟩,
        0, false)
    else (asw, now - e.DetachRequestedTime, false)
  | none => (asw, 0, true)

/-- The `reconciler` struct's mutable collaborators: the two injected
cache handles (`loopPeriod` and `maxSafeToDetachDuration` are passed
separately, and the executor is event-recorded). -/
structure ReconcilerState where
  desiredStateOfWorld : DesiredStateOfWorld
  actualStateOfWorld : ActualStateOfWorld
deriving DecidableEq

/-- One iteration of `reconciliationLoopFunc` over the concrete cache
states (reconciler.go lines 76-118): the attach-ensuring loop touches or
attach-submits per desired edge against the live actual cache, then the
detach-ensuring loop runs over the actual snapshot taken after it,
submitting detaches and marking desires to detach; all actions are also
recorded as events.  The desired cache is only read. -/
def runIteration (maxSafeToDetachDuration : Int) (now : Int)
    (s : ReconcilerState) : ReconcilerState × List Event :=
  let step1 := s.desiredStateOfWorld.GetVolumesToAttach.foldl
    (fun (acc : ActualStateOfWorld × List Event) volumeToAttach =>
      if acc.1.VolumeNodeExists volumeToAttach.VolumeName volumeToAttach.NodeName then
        ((acc.1.AddVolumeNode volumeToAttach.VolumeSpec volumeToAttach.NodeName).1,
          acc.2 ++ [Event.addVolumeNode volumeToAttach.VolumeName volumeToAttach.NodeName])
      else
        (acc.1, acc.2 ++ [Event.attachVolume volumeToAttach.VolumeName volumeToAttach.NodeName]))
    (s.actualStateOfWorld, [])
  let step2 := step1.1.GetAttachedVolumes.foldl
    (fun (acc : ActualStateOfWorld × List Event) attachedVolume =>
      if !s.desiredStateOfWorld.VolumeExists attachedVolume.VolumeName attachedVolume.NodeName then
        if attachedVolume.SafeToDetach then
          (acc.1, acc.2 ++ [Event.detachVolume attachedVolume.VolumeName attachedVolume.NodeName])
        else
          let r := acc.1.MarkDesireToDetach now attachedVolume.VolumeName attachedVolume.NodeName
          if r.2.1 > maxSafeToDetachDuration then
            (r.1, acc.2 ++
              [Event.markDesireToDetach attachedVolume.VolumeName attachedVolume.NodeName,
                Event.detachVolume attachedVolume.VolumeName attachedVolume.NodeName])
          else
            (r.1, acc.2 ++
              [Event.markDesireToDetach attachedVolume.VolumeName attachedVolume.NodeName])
      else acc)
    (step1.1, step1.2)
  (⟨s.desiredStateOfWorld, step2.1⟩, step2.2)

/-- Iterated runs of the loop body, iteration `k` executing at clock
`nows k`, each applied to the state the previous iteration produced. -/
def runIterations (maxSafeToDetachDuration : Int) (nows : Nat → Int) :
    Nat → ReconcilerState → ReconcilerState
  | 0, s => s
  | k + 1, s =>
    (runIteration maxSafeToDetachDuration (nows k)
      (runIterations maxSafeToDetachDuration nows k s)).1


/-- C8: an iteration never mutates the desired-state cache: the loop's
only desired-cache operations are the enumeration and the membership test,
both reads, so the desired component of the state is unchanged by one
iteration and by any number of iterations. -/
theorem C8_desired_cache_never_mutated (maxD now : Int) (s : ReconcilerState) :
    ((runIteration maxD now s).1).desiredStateOfWorld = s.desiredStateOfWorld ∧
    ∀ (nows : Nat → Int) (k : Nat),
      (runIterations maxD nows k s).desiredStateOfWorld = s.desiredStateOfWorld := by
  refine ⟨rfl, ?_⟩
  intro nows k
  induction k with
  | zero => rfl
  | succ k ih => exact ih

/-- Modelled from the spec: the timing of `wait.Until(f, period, stopCh)`
(package `pkg/util/wait`, not under src/), to which `Run` delegates with
`f = rc.reconciliationLoopFunc()` and `period = rc.loopPeriod`: the body
runs once immediately, and after each execution returns, the next starts
`loopPeriod` later; `durations k` is the running time of iteration `k`'s
body.  `iterationStart` gives each iteration's start instant. -/
def iterationStart (loopPeriod : Int) (durations : Nat → Int) : Nat → Int
  | 0 => 0
  | k + 1 => iterationStart loopPeriod durations k + durations k + loopPeriod

/-- Instant at which iteration `k`'s body returns. -/
def iterationEnd (loopPeriod : Int) (durations : Nat → Int) (k : Nat) : Int :=
  iterationStart loopPeriod durations k + durations k

/-- Modelled from the spec: `Run(stopCh)` (reconciler.go lines 72-74) as
the reconciler state after `n` scheduled ticks when the stop channel is
first observed fired at tick `stopAfter`: exactly the iterations with
index below `stopAfter` execute, sequentially. -/
def Run (maxD : Int) (nows : Nat → Int) (stopAfter : Nat) (n : Nat)
    (s : ReconcilerState) : ReconcilerState :=
  runIterations maxD nows (min n stopAfter) s

/-- C9: `Run` executes the loop body once immediately (iteration 0 starts
at instant 0), each body runs before its iteration ends, successive
executions are separated by exactly `loopPeriod` after the previous body
returns — so iteration `k+1` never begins before iteration `k`'s body
returns — iteration `k+1` acts on the state iteration `k` produced, and
once the stop signal has fired no further iteration executes. -/
theorem C9_run_executes_periodically_until_stopped
    (loopPeriod : Int) (durations : Nat → Int) (stopAfter : Nat)
    (hp : 0 ≤ loopPeriod) (hd : ∀ k, 0 ≤ durations k) :
    iterationStart loopPeriod durations 0 = 0 ∧
    (∀ k, iterationStart loopPeriod durations k ≤
      iterationEnd loopPeriod durations k) ∧
    (∀ k, iterationStart loopPeriod durations (k + 1) =
      iterationEnd loopPeriod durations k + loopPeriod) ∧
    (∀ k, iterationEnd loopPeriod durations k ≤
      iterationStart loopPeriod durations (k + 1)) ∧
    (∀ (maxD : Int) (nows : Nat → Int) (s : ReconcilerState) (k : Nat),
      k < stopAfter →
      Run maxD nows stopAfter (k + 1) s =
        (runIteration maxD (nows k) (Run maxD nows stopAfter k s)).1) ∧
    (∀ (maxD : Int) (nows : Nat → Int) (s : ReconcilerState) (n : Nat),
      stopAfter ≤ n →
      Run maxD nows stopAfter n s = Run maxD nows stopAfter stopAfter s) := by
  refine ⟨rfl, ?_, fun k => rfl, ?_, ?_, ?_⟩
  · intro k
    have := hd k
    unfold iterationEnd
    omega
  · intro k
    have h : iterationStart loopPeriod durations (k + 1) =
        iterationEnd loopPeriod durations k + loopPeriod := rfl
    rw [h]
    omega
  · intro maxD nows s k hk
    unfold Run
    rw [Nat.min_eq_left (Nat.succ_le_of_lt hk), Nat.min_eq_left (Nat.le_of_lt hk)]
    rfl
  · intro maxD nows s n hle
    unfold Run
    rw [Nat.min_eq_right hle, Nat.min_self]

/-- Witness for C9 at a concrete input: period 1, bodies of duration 2,
stop observed at tick 3. -/
theorem C9_run_executes_periodically_until_stopped_witness :
    iterationStart 1 (fun _ => 2) 0 = 0 ∧
    (∀ k, iterationStart 1 (fun _ => 2) k ≤ iterationEnd 1 (fun _ => 2) k) ∧
    (∀ k, iterationStart 1 (fun _ => 2) (k + 1) =
      iterationEnd 1 (fun _ => 2) k + 1) ∧
    (∀ k, iterationEnd 1 (fun _ => 2) k ≤ iterationStart 1 (fun _ => 2) (k + 1)) ∧
    (∀ (maxD : Int) (nows : Nat → Int) (s : ReconcilerState) (k : Nat),
      k < 3 →
      Run maxD nows 3 (k + 1) s = (runIteration maxD (nows k) (Run maxD nows 3 k s)).1) ∧
    (∀ (maxD : Int) (nows : Nat → Int) (s : ReconcilerState) (n : Nat),
      3 ≤ n → Run maxD nows 3 n s = Run maxD nows 3 3 s) :=
  C9_run_executes_periodically_until_stopped 1 (fun _ => 2) 3 (by decide)
    (fun _ => by show (0 : Int) ≤ 2; decide)
